import Mathlib

/-!
Shallow embedding of the configuration-resolution, diagnostic-normalization
and watch-session core of the `mcp-typescript` server.

Sources embedded:
  * `src/utils/diagnostics.ts` — `formatDiagnostic`, `getDiagnosticSummary`
  * `src/utils/file.ts` — `fileExists`, `findTsConfig`, `getOutputPath`
  * `src/handlers/typechecker.ts` — `checkTypes`, `checkSingleFile`,
    `checkProject`, `getDiagnostics`
  * the compiler handler (`TypeScriptCompiler`) — `compileFile`,
    `compileSingleFile`, `compileProject`, `setupWatchMode`, `stopWatching`
  * the config manager (`TypeScriptConfigManager`) — `updateTsConfig`,
    `validateConfig`

External collaborators (the TypeScript engine `ts.*`, `JSON.stringify`,
the filesystem and `chokidar`) are modelled as explicit capabilities:
the engine as a record of pure functions, the filesystem as an
association list, watcher subscriptions as a ledger of opened/closed
subscription identifiers.
-/

namespace McpTs

/-! ### JavaScript values

JSON-like values as manipulated by the config manager.  `undefined` models
the JavaScript `undefined` value (a key present with value `undefined`
is distinct from an absent key for spread/`Object.assign` bookkeeping). -/

inductive JValue where
  | undefined
  | null
  | bool (b : Bool)
  | num (n : Int)
  | str (s : String)
  | arr (elems : List JValue)
  | obj (fields : List (String × JValue))

/-- First-match association-list lookup: the JS-object property access
`o[k]` over a field list with (as in JS objects) unique keys. -/
def alookup {α : Type} : List (String × α) → String → Option α
  | [], _ => none
  | (k, v) :: rest, key => if k = key then some v else alookup rest key

/-- `o[k] = v` on a JS object: replace the value in place when the key is
present, append otherwise (JS objects have unique keys). -/
def setAssoc {α : Type} (l : List (String × α)) (k : String) (v : α) : List (String × α) :=
  if (alookup l k).isSome then l.map (fun p => (p.1, if p.1 = k then v else p.2))
  else l ++ [(k, v)]

/-- JS `typeof` (note `typeof null === 'object'` and arrays are objects). -/
def jTypeof : JValue → String
  | .undefined => "undefined"
  | .null => "object"
  | .bool _ => "boolean"
  | .num _ => "number"
  | .str _ => "string"
  | .arr _ => "object"
  | .obj _ => "object"

/-- JS truthiness. -/
def jTruthy : JValue → Bool
  | .undefined => false
  | .null => false
  | .bool b => b
  | .num n => n != 0
  | .str s => s != ""
  | .arr _ => true
  | .obj _ => true

/-- JS property access `v.k` yielding `undefined` when the key is absent
or the receiver is not an object (arrays/strings have no named keys we
ever access; access on `null` is guarded separately by its caller). -/
def objGet (v : JValue) (k : String) : JValue :=
  match v with
  | .obj fields => (alookup fields k).getD .undefined
  | _ => .undefined

/-- Fields contributed by `{...v}`: an object's own fields; arrays and
strings spread to index-keyed entries; primitives contribute nothing. -/
def spreadFields : JValue → List (String × JValue)
  | .obj fields => fields
  | .arr xs => xs.enum.map (fun p => (toString p.1, p.2))
  | .str s => s.data.enum.map (fun p => (toString p.1, JValue.str (String.singleton p.2)))
  | _ => []

/-- `{...a, ...b}` on field lists: keys of `a` keep their position but take
`b`'s value when `b` also has the key; keys only in `b` follow.  This is
also `Object.assign(a, b)` observed through the resulting object. -/
def mergeFields (a b : List (String × JValue)) : List (String × JValue) :=
  a.map (fun p => (p.1, (alookup b p.1).getD p.2)) ++
    b.filter (fun p => (alookup a p.1).isNone)

/-- Left-biased choice on `Option`, used to state merge precedence. -/
def optOr {α : Type} : Option α → Option α → Option α
  | some v, _ => some v
  | none, o => o

theorem alookup_append {α : Type} (xs ys : List (String × α)) (k : String) :
    alookup (xs ++ ys) k = optOr (alookup xs k) (alookup ys k) := by
  induction xs with
  | nil => simp [alookup, optOr]
  | cons hd tl ih =>
      by_cases h : hd.1 = k
      · simp [alookup, h, optOr]
      · simpa [alookup, h] using ih

theorem alookup_map_adjust {α : Type} (l : List (String × α)) (f : String → α → α) (k : String) :
    alookup (l.map (fun p => (p.1, f p.1 p.2))) k = (alookup l k).map (f k) := by
  induction l with
  | nil => simp [alookup]
  | cons hd tl ih =>
      by_cases h : hd.1 = k
      · subst h; simp [alookup]
      · simpa [alookup, h] using ih

theorem alookup_filter_key {α : Type} (l : List (String × α)) (q : String → Bool) (k : String)
    (hq : q k = true) :
    alookup (l.filter (fun p => q p.1)) k = alookup l k := by
  induction l with
  | nil => simp [alookup]
  | cons hd tl ih =>
      obtain ⟨k', v⟩ := hd
      rw [List.filter_cons]
      by_cases h : k' = k
      · subst h
        simp [hq, alookup]
      · by_cases hq' : q k' = true
        · simp [hq', alookup, h, ih]
        · simp [hq', alookup, h, ih]

/-- Lookup through `{...a, ...b}`: `b` wins, `a` is the fallback. -/
theorem alookup_mergeFields (a b : List (String × JValue)) (k : String) :
    alookup (mergeFields a b) k = optOr (alookup b k) (alookup a k) := by
  unfold mergeFields
  rw [alookup_append]
  have hmap : alookup (a.map (fun p => (p.1, (alookup b p.1).getD p.2))) k
      = (alookup a k).map (fun v => (alookup b k).getD v) := by
    simpa using alookup_map_adjust a (fun key v => (alookup b key).getD v) k
  rw [hmap]
  cases ha : alookup a k with
  | some v =>
      cases hb : alookup b k with
      | some w => simp [optOr, hb]
      | none => simp [optOr, hb]
  | none =>
      have hfilter : alookup (b.filter (fun p => (alookup a p.1).isNone)) k = alookup b k := by
        have := alookup_filter_key b (fun key => (alookup a key).isNone) k (by simp [ha])
        simpa using this
      simp only [Option.map_none, hfilter]
      cases hb : alookup b k with
      | some w => simp [optOr]
      | none => simp [optOr]

/-! ### Diagnostics (`src/utils/diagnostics.ts`)

`ts.DiagnosticCategory` is the engine's closed four-member enum
(`Warning = 0, Error = 1, Suggestion = 2, Message = 3`). -/

inductive DiagnosticCategory where
  | warning
  | error
  | suggestion
  | message
deriving Repr, DecidableEq

inductive Severity where
  | error
  | warning
  | info
deriving Repr, DecidableEq

/-- An engine diagnostic (`ts.Diagnostic`) as the handlers consume it.
`fileName` is `diagnostic.file?.fileName`; `lineChar` is the engine's
0-based `(line, character)` for `diagnostic.start`, present exactly when
the source file and the start offset are both attached (the engine's
`getLineAndCharacterOfPosition` is an external facility, so its output is
carried as data); `messageText` is the already-flattened message chain
(`flattenDiagnosticMessageText` is likewise external). -/
structure Diagnostic where
  fileName : Option String := none
  lineChar : Option (Nat × Nat) := none
  messageText : String := ""
  code : Nat := 0
  category : DiagnosticCategory
deriving Repr, DecidableEq

/-- `String.endsWith`, computed on character lists so that closed
instances reduce. -/
def strEndsWith (s t : String) : Bool :=
  List.take t.data.length s.data.reverse == t.data.reverse

/-- `String.dropRight`, computed on character lists. -/
def strDropRight (s : String) (n : Nat) : String :=
  String.mk (s.data.take (s.data.length - n))

/-- JS `a || d` on an optional string: empty and missing both fall back. -/
def strOr (o : Option String) (d : String) : String :=
  match o with
  | some s => if s = "" then d else s
  | none => d

/-- JS truthiness of an optional string (`if (s)`). -/
def optStrTruthy (o : Option String) : Bool :=
  o.getD "" != ""

structure FormattedDiagnostic where
  file : String
  line : Nat
  column : Nat
  message : String
  code : String
  severity : Severity
deriving Repr, DecidableEq

/-- The `switch (diagnostic.category)` of `formatDiagnostic`: `Warning`
maps to `warning`, `Suggestion` and `Message` to `info`, and the
`default` branch (which over the closed enum is reached only by `Error`)
fails closed to `error`. -/
def severityOfCategory : DiagnosticCategory → Severity
  | .warning => .warning
  | .suggestion => .info
  | .message => .info
  | .error => .error

/-- `formatDiagnostic` from `src/utils/diagnostics.ts`. -/
def formatDiagnostic (d : Diagnostic) : FormattedDiagnostic :=
  { file := strOr d.fileName "unknown"
    line := match d.lineChar with | some lc => lc.1 + 1 | none => 0
    column := match d.lineChar with | some lc => lc.2 + 1 | none => 0
    message := d.messageText
    code := "TS" ++ toString d.code
    severity := severityOfCategory d.category }

/-- The inline severity conversion used by `compileSingleFile` and
`compileProject`:
`diagnostic.category === ts.DiagnosticCategory.Error ? 'error' : 'warning'`. -/
def inlineSeverity (c : DiagnosticCategory) : Severity :=
  if c = .error then .error else .warning

/-- The inline diagnostic mapping of `compileSingleFile` (default file
`filePath`) and `compileProject` (default file `"unknown"`). -/
def inlineFormatDiagnostic (defaultFile : String) (d : Diagnostic) : FormattedDiagnostic :=
  { file := strOr d.fileName defaultFile
    line := match d.lineChar with | some lc => lc.1 + 1 | none => 0
    column := match d.lineChar with | some lc => lc.2 + 1 | none => 0
    message := d.messageText
    code := "TS" ++ toString d.code
    severity := inlineSeverity d.category }

structure DiagnosticSummary where
  errorCount : Nat
  warningCount : Nat
  infoCount : Nat
deriving Repr, DecidableEq

/-- Body of the `diagnostics.forEach` in `getDiagnosticSummary`. -/
def summaryStep (s : DiagnosticSummary) (d : Diagnostic) : DiagnosticSummary :=
  match d.category with
  | .error => { s with errorCount := s.errorCount + 1 }
  | .warning => { s with warningCount := s.warningCount + 1 }
  | .suggestion => { s with infoCount := s.infoCount + 1 }
  | .message => { s with infoCount := s.infoCount + 1 }

/-- `getDiagnosticSummary` from `src/utils/diagnostics.ts`. -/
def getDiagnosticSummary (ds : List Diagnostic) : DiagnosticSummary :=
  ds.foldl summaryStep ⟨0, 0, 0⟩

/-! ### Request records (`src/types/index.ts`) -/

structure CompileOptions where
  filePath : Option String := none
  projectPath : Option String := none
  outputDir : Option String := none
  sourceMap : Option Bool := none
  watch : Option Bool := none
deriving Repr, DecidableEq

structure TypeCheckOptions where
  filePath : String
  strict : Option Bool := none
  includeDeclarations : Option Bool := none
deriving Repr, DecidableEq

structure TsConfigUpdateOptions where
  configPath : String
  options : List (String × JValue)

/-! ### Effective compiler options

The numeric values of the engine's option enums, as they appear in the
handlers' base option objects: `ts.ScriptTarget.ES2020 = 7` and
`ts.ModuleKind.CommonJS = 1`. -/

def scriptTargetES2020 : JValue := .num 7

def moduleKindCommonJS : JValue := .num 1

/-- The base `compilerOptions` object built at the top of
`compileSingleFile`: `{target: ES2020, module: CommonJS, sourceMap:
options.sourceMap || false, outDir: options.outputDir}` (the `outDir`
key is present with value `undefined` when no output directory was
requested). -/
def compileBaseOptions (opts : CompileOptions) : List (String × JValue) :=
  [("target", scriptTargetES2020),
   ("module", moduleKindCommonJS),
   ("sourceMap", .bool (opts.sourceMap.getD false)),
   ("outDir", match opts.outputDir with | some d => .str d | none => .undefined)]

/-- The base `compilerOptions` object built at the top of
`checkSingleFile`: `{target, module, strict: options.strict || false,
skipLibCheck: !options.includeDeclarations}` (JS `!undefined = true`). -/
def checkBaseOptions (opts : TypeCheckOptions) : List (String × JValue) :=
  [("target", scriptTargetES2020),
   ("module", moduleKindCommonJS),
   ("strict", .bool (opts.strict.getD false)),
   ("skipLibCheck", .bool (!(opts.includeDeclarations.getD false)))]

/-- The base `compilerOptions` object built at the top of
`getDiagnostics`: `{target, module}`. -/
def diagBaseOptions : List (String × JValue) :=
  [("target", scriptTargetES2020),
   ("module", moduleKindCommonJS)]

/-- `compileSingleFile`'s merge of the parsed tsconfig into the base:
`Object.assign(compilerOptions, parsedConfig.options)` — the parsed
config wins. -/
def effectiveCompileOptions (opts : CompileOptions) (parsed : List (String × JValue)) :
    List (String × JValue) :=
  mergeFields (compileBaseOptions opts) parsed

/-- `checkSingleFile`'s merge:
`compilerOptions = { ...parsedConfig.options, ...compilerOptions }` —
the base object wins. -/
def effectiveCheckOptions (opts : TypeCheckOptions) (parsed : List (String × JValue)) :
    List (String × JValue) :=
  mergeFields parsed (checkBaseOptions opts)

/-- `getDiagnostics`' merge:
`compilerOptions = { ...parsedConfig.options, ...compilerOptions }`. -/
def effectiveDiagOptions (parsed : List (String × JValue)) : List (String × JValue) :=
  mergeFields parsed diagBaseOptions

/-! ### Paths (Node `path`) and the filesystem capability

Node's `path` module is an external collaborator.  The fragments the
core exercises are modelled for absolute, already-normalized inputs:
`resolve` strips trailing separators (`resolve('/a/b/') === '/a/b'`),
`dirname`/`basename` split at the last separator, `join` inserts one. -/

/-- `path.resolve` on an absolute, otherwise-normalized path: trailing
separators are stripped, the root `/` is preserved. -/
def resolvePath (p : String) : String :=
  let cs := p.data
  let trimmed := (cs.reverse.dropWhile (fun c => c = '/')).reverse
  if trimmed.isEmpty then (if cs.isEmpty then "" else "/") else String.mk trimmed

/-- `path.dirname` for paths without a trailing separator. -/
def dirnamePath (p : String) : String :=
  let cs := p.data
  match cs.reverse.findIdx? (fun c => c = '/') with
  | none => "."
  | some j =>
      let i := cs.length - 1 - j
      if i = 0 then "/" else String.mk (cs.take i)

/-- `path.basename` (no trailing separator in the input). -/
def basenameFull (p : String) : String :=
  String.mk ((p.data.reverse.takeWhile (fun c => c ≠ '/')).reverse)

/-- `path.extname`: the suffix of the basename from its last `.`, empty
when there is no dot or the only dot leads (hidden files). -/
def extnamePath (p : String) : String :=
  let b := (basenameFull p).data
  match b.reverse.findIdx? (fun c => c = '.') with
  | none => ""
  | some j =>
      let i := b.length - 1 - j
      if i = 0 then "" else String.mk (b.drop i)

/-- `path.basename(p, path.extname(p))`: the basename with its extension
stripped (Node keeps the name whole when it equals the extension). -/
def basenameStripExt (p : String) : String :=
  let f := basenameFull p
  let e := extnamePath p
  if (f != e) && strEndsWith f e then strDropRight f e.data.length else f

/-- `path.join(a, b)` for the simple two-segment uses in the source. -/
def joinPath (a b : String) : String :=
  if a = "" then b
  else if strEndsWith a "/" then a ++ b
  else a ++ "/" ++ b

/-- A filesystem entry: a regular file with its text content, or a
directory. -/
inductive FsEntry where
  | file (content : String)
  | dir
deriving Repr, DecidableEq

/-- The filesystem capability: resolved path to entry. -/
abbrev FileSystem := List (String × FsEntry)

/-- `fileExists` (`fs.existsSync`): true for files and directories. -/
def fileExists (fs : FileSystem) (p : String) : Bool :=
  (alookup fs p).isSome

/-- `readFile` (promisified `fs.readFile`): content of a regular file,
a rejection for directories and missing paths. -/
def readFileContent (fs : FileSystem) (p : String) : Except String String :=
  match alookup fs p with
  | some (.file c) => .ok c
  | some .dir => .error ("EISDIR: illegal operation on a directory, read " ++ p)
  | none => .error ("ENOENT: no such file or directory, open " ++ p)

/-- `writeFile` (with its `mkdir -p`): store the content, replacing any
previous entry at the path. -/
def writeFileFs (fs : FileSystem) (p : String) (content : String) : FileSystem :=
  (p, .file content) :: fs.filter (fun e => e.1 ≠ p)

/-- The ancestor walk of `findTsConfig` (`src/utils/file.ts`), expressed
with fuel for the `while (currentDir !== path.dirname(currentDir))`
loop.  Note the loop guard runs before the root is examined, so a
`tsconfig.json` sitting directly at `/` is never found. -/
def findTsConfigGo (fs : FileSystem) : Nat → String → Option String
  | 0, _ => none
  | fuel + 1, dir =>
      if dir = dirnamePath dir then none
      else if fileExists fs (joinPath dir "tsconfig.json") then
        some (joinPath dir "tsconfig.json")
      else findTsConfigGo fs fuel (dirnamePath dir)

/-- `findTsConfig` from `src/utils/file.ts`.  `dirnamePath` shortens any
non-fixpoint path, so `length + 2` steps of fuel always outlast the
walk. -/
def findTsConfig (fs : FileSystem) (startDir : String) : Option String :=
  findTsConfigGo fs (startDir.length + 2) startDir

/-- `getOutputPath` from `src/utils/file.ts`.  An empty `outputDir` is
falsy in JS and behaves like an absent one. -/
def getOutputPath (inputPath : String) (outputDir : Option String) : String :=
  if optStrTruthy outputDir then
    joinPath (outputDir.getD "") (basenameStripExt inputPath ++ ".js")
  else if strEndsWith inputPath ".tsx" then strDropRight inputPath 4 ++ ".js"
  else if strEndsWith inputPath ".ts" then strDropRight inputPath 3 ++ ".js"
  else inputPath

/-! ### The compiler engine capability

The TypeScript engine itself is out of scope; it is modelled as a record
of pure functions.  `readConfig` stands for `ts.readConfigFile` applied
to the file's text (an `Except` for `configFile.error`); `parseConfig`
for `ts.parseJsonConfigFileContent(config, ts.sys, basePath)`;
`preEmitDiagnostics` for `ts.getPreEmitDiagnostics(ts.createProgram(fileNames,
options))`; `emit` for `program.emit()`; `transpile` for
`ts.transpileModule(source, {compilerOptions, fileName})`; `stringify`
for `JSON.stringify(·, null, 2)`. -/

structure TranspileOutput where
  outputText : String
  sourceMapText : Option String := none
  diagnostics : List Diagnostic := []

structure ParsedCommandLine where
  options : List (String × JValue) := []
  fileNames : List String := []
  errors : List Diagnostic := []

structure EmitOutput where
  emitSkipped : Bool := false
  diagnostics : List Diagnostic := []

structure Engine where
  transpile : String → String → List (String × JValue) → TranspileOutput
  readConfig : String → Except String JValue
  parseConfig : JValue → String → ParsedCommandLine
  preEmitDiagnostics : List String → List (String × JValue) → List Diagnostic
  emit : List String → List (String × JValue) → EmitOutput
  stringify : JValue → String

/-! ### Type checker (`src/handlers/typechecker.ts`)

Methods that `throw` are embedded as `Except String`: a `.error` is an
exception escaping to the caller (an `async` rejection). -/

structure TypeCheckResult where
  success : Bool
  diagnostics : List FormattedDiagnostic
  summary : DiagnosticSummary
deriving Repr, DecidableEq

/-- The configuration-resolution block of `checkSingleFile` (lines 27-46):
start from `checkBaseOptions`; when a tsconfig is found and reads
without error, overlay it under the base
(`{ ...parsedConfig.options, ...compilerOptions }`). -/
def checkSingleEffectiveOptions (eng : Engine) (fs : FileSystem) (opts : TypeCheckOptions) :
    List (String × JValue) :=
  let filePath := resolvePath opts.filePath
  match findTsConfig fs (dirnamePath filePath) with
  | none => checkBaseOptions opts
  | some tsConfigPath =>
      match readFileContent fs tsConfigPath with
      | .error _ => checkBaseOptions opts
      | .ok content =>
          match eng.readConfig content with
          | .error _ => checkBaseOptions opts
          | .ok cfg =>
              effectiveCheckOptions opts (eng.parseConfig cfg (dirnamePath tsConfigPath)).options

/-- `checkSingleFile` from `src/handlers/typechecker.ts`. -/
def checkSingleFile (eng : Engine) (fs : FileSystem) (opts : TypeCheckOptions) :
    Except String TypeCheckResult :=
  let filePath := resolvePath opts.filePath
  let compilerOptions := checkSingleEffectiveOptions eng fs opts
  let diagnostics := eng.preEmitDiagnostics [filePath] compilerOptions
  let summary := getDiagnosticSummary diagnostics
  .ok { success := summary.errorCount == 0
        diagnostics := diagnostics.map formatDiagnostic
        summary := summary }

/-- `checkProject` from `src/handlers/typechecker.ts`: fatal (`throw`)
when `<projectPath>/tsconfig.json` is absent or unreadable; parse errors
are returned as a failed result; the `strict` /
`includeDeclarations` request fields override the parsed options only
when supplied (`!== undefined`). -/
def checkProject (eng : Engine) (fs : FileSystem) (opts : TypeCheckOptions) :
    Except String TypeCheckResult :=
  let projectPath := resolvePath opts.filePath
  let tsConfigPath := joinPath projectPath "tsconfig.json"
  if ¬ fileExists fs tsConfigPath then .error ("tsconfig.json not found in " ++ projectPath)
  else
    match readFileContent fs tsConfigPath with
    | .error e => .error ("Error reading tsconfig.json: " ++ e)
    | .ok content =>
        match eng.readConfig content with
        | .error e => .error ("Error reading tsconfig.json: " ++ e)
        | .ok cfg =>
            let parsed := eng.parseConfig cfg projectPath
            if parsed.errors ≠ [] then
              .ok { success := false
                    diagnostics := parsed.errors.map formatDiagnostic
                    summary := getDiagnosticSummary parsed.errors }
            else
              let o1 := match opts.strict with
                | some b => setAssoc parsed.options "strict" (.bool b)
                | none => parsed.options
              let o2 := match opts.includeDeclarations with
                | some b => setAssoc o1 "skipLibCheck" (.bool (!b))
                | none => o1
              let diagnostics := eng.preEmitDiagnostics parsed.fileNames o2
              let summary := getDiagnosticSummary diagnostics
              .ok { success := summary.errorCount == 0
                    diagnostics := diagnostics.map formatDiagnostic
                    summary := summary }

/-- `checkTypes` from `src/handlers/typechecker.ts`.  Note the dispatch
test: `const isFile = !filePath.endsWith('/') && fileExists(filePath)`
runs on the `path.resolve`d target. -/
def checkTypes (eng : Engine) (fs : FileSystem) (opts : TypeCheckOptions) :
    Except String TypeCheckResult :=
  let filePath := resolvePath opts.filePath
  if ¬ fileExists fs filePath then .error ("File not found: " ++ filePath)
  else
    let isFile := (!(strEndsWith filePath "/")) && fileExists fs filePath
    if isFile then checkSingleFile eng fs opts else checkProject eng fs opts

/-- The configuration-resolution block of `getDiagnostics` (lines
122-139): identical shape to `checkSingleFile`'s, with the two-key base
object. -/
def getDiagnosticsEffectiveOptions (eng : Engine) (fs : FileSystem) (filePathRaw : String) :
    List (String × JValue) :=
  let filePath := resolvePath filePathRaw
  match findTsConfig fs (dirnamePath filePath) with
  | none => diagBaseOptions
  | some tsConfigPath =>
      match readFileContent fs tsConfigPath with
      | .error _ => diagBaseOptions
      | .ok content =>
          match eng.readConfig content with
          | .error _ => diagBaseOptions
          | .ok cfg =>
              effectiveDiagOptions (eng.parseConfig cfg (dirnamePath tsConfigPath)).options

/-! ### Compiler handler (`TypeScriptCompiler`)

`duration` (wall-clock milliseconds) is not modelled; every other field
of `CompilationResult` is.  An absent `files` field is represented by
`[]`. -/

structure CompilationResult where
  success : Bool
  output : Option String := none
  files : List (String × String) := []
  errors : Option (List FormattedDiagnostic) := none
deriving Repr, DecidableEq

/-- The configuration-resolution block of `compileSingleFile` (lines
359-378): start from `compileBaseOptions`; when a tsconfig is found and
reads without error, `Object.assign` the parsed options over the base. -/
def singleFileEffectiveOptions (eng : Engine) (fs : FileSystem) (opts : CompileOptions)
    (filePath : String) : List (String × JValue) :=
  match findTsConfig fs (dirnamePath filePath) with
  | none => compileBaseOptions opts
  | some tsConfigPath =>
      match readFileContent fs tsConfigPath with
      | .error _ => compileBaseOptions opts
      | .ok content =>
          match eng.readConfig content with
          | .error _ => compileBaseOptions opts
          | .ok cfg =>
              effectiveCompileOptions opts (eng.parseConfig cfg (dirnamePath tsConfigPath)).options

/-- `compileSingleFile`: transpile one file and write every produced
output (`.js`, plus `.js.map` when a source map was requested and
produced) through the write capability. -/
def compileSingleFile (eng : Engine) (fs : FileSystem) (opts : CompileOptions) :
    Except String (FileSystem × CompilationResult) :=
  match opts.filePath with
  | none => .error "TypeError: the path argument must be of type string"
  | some fp0 =>
      let filePath := resolvePath fp0
      if ¬ fileExists fs filePath then .error ("File not found: " ++ filePath)
      else
        match readFileContent fs filePath with
        | .error e => .error e
        | .ok sourceCode =>
            let compilerOptions := singleFileEffectiveOptions eng fs opts filePath
            let result := eng.transpile sourceCode filePath compilerOptions
            let errors := result.diagnostics.map (inlineFormatDiagnostic filePath)
            let outputPath := getOutputPath filePath opts.outputDir
            let files := (outputPath, result.outputText) ::
              (match result.sourceMapText with
               | some smt =>
                   if smt != "" && opts.sourceMap.getD false then [(outputPath ++ ".map", smt)]
                   else []
               | none => [])
            let fs' := files.foldl (fun acc f => writeFileFs acc f.1 f.2) fs
            .ok (fs',
              { success := (errors.filter (fun e => e.severity == Severity.error)).isEmpty
                output := some result.outputText
                files := files
                errors := if errors.isEmpty then none else some errors })

/-- `compileProject`: fatal when `<projectPath>/tsconfig.json` is absent
or unreadable; config parse errors come back as error diagnostics
anchored at the tsconfig; `outputDir`/`sourceMap` request fields
override only those two parsed keys; emission output files are written
by the engine itself (`program.emit()` uses `ts.sys`), outside the
modelled write capability. -/
def compileProject (eng : Engine) (fs : FileSystem) (opts : CompileOptions) :
    Except String (FileSystem × CompilationResult) :=
  match opts.projectPath with
  | none => .error "TypeError: the path argument must be of type string"
  | some pp0 =>
      let projectPath := resolvePath pp0
      let tsConfigPath := joinPath projectPath "tsconfig.json"
      if ¬ fileExists fs tsConfigPath then .error ("tsconfig.json not found in " ++ projectPath)
      else
        match readFileContent fs tsConfigPath with
        | .error e => .error ("Error reading tsconfig.json: " ++ e)
        | .ok content =>
            match eng.readConfig content with
            | .error e => .error ("Error reading tsconfig.json: " ++ e)
            | .ok cfg =>
                let parsed := eng.parseConfig cfg projectPath
                if parsed.errors ≠ [] then
                  .ok (fs,
                    { success := false
                      errors := some (parsed.errors.map (fun d =>
                        { file := tsConfigPath, line := 0, column := 0,
                          message := d.messageText, code := "TS" ++ toString d.code,
                          severity := Severity.error })) })
                else
                  let o1 :=
                    if optStrTruthy opts.outputDir then
                      setAssoc parsed.options "outDir" (.str (resolvePath (opts.outputDir.getD "")))
                    else parsed.options
                  let o2 := match opts.sourceMap with
                    | some b => setAssoc o1 "sourceMap" (.bool b)
                    | none => o1
                  let emitResult := eng.emit parsed.fileNames o2
                  let allDiagnostics :=
                    eng.preEmitDiagnostics parsed.fileNames o2 ++ emitResult.diagnostics
                  let errors := allDiagnostics.map (inlineFormatDiagnostic "unknown")
                  .ok (fs,
                    { success := (!emitResult.emitSkipped) &&
                        (errors.filter (fun e => e.severity == Severity.error)).isEmpty
                      errors := if errors.isEmpty then none else some errors })

/-! ### Watch sessions

`this.watcherMap : Map<string, chokidar.FSWatcher>` is `registry`.
Each `chokidar.watch(...)` call opens a fresh subscription; `created`
ledgers every subscription ever opened as `(id, key)` and `closed` the
ids whose `close()` has been invoked, so that live subscriptions are
observable. -/

structure WatcherState where
  registry : List (String × Nat) := []
  created : List (Nat × String) := []
  closed : List Nat := []
  nextId : Nat := 0
deriving Repr, DecidableEq

/-- `setupWatchMode`: close the old subscription for the key if one is
registered (`this.watcherMap.get(watchKey)?.close()`), open a fresh one
and store it, then acknowledge without compiling.  (`options.filePath!`
is non-null-asserted; `compileFile` guards the call with truthiness.) -/
def setupWatchMode (ws : WatcherState) (opts : CompileOptions) :
    WatcherState × CompilationResult :=
  let filePath := resolvePath (opts.filePath.getD "")
  let ws1 := match alookup ws.registry filePath with
    | some oldId => { ws with closed := oldId :: ws.closed }
    | none => ws
  let ws2 := { ws1 with
    created := (ws1.nextId, filePath) :: ws1.created
    registry := setAssoc ws1.registry filePath ws1.nextId
    nextId := ws1.nextId + 1 }
  (ws2,
   { success := true
     output := some ("Watch mode started for " ++ filePath ++ ". Press Ctrl+C to stop.") })

/-- `stopWatching(filePath?)`: with a (truthy) path, close and remove
that key's session when present, otherwise do nothing; with no path,
close every registered session and clear the map. -/
def stopWatching (ws : WatcherState) (filePath : Option String) : WatcherState :=
  if optStrTruthy filePath then
    let watchKey := resolvePath (filePath.getD "")
    match alookup ws.registry watchKey with
    | some id =>
        { ws with closed := id :: ws.closed
                  registry := ws.registry.filter (fun p => p.1 ≠ watchKey) }
    | none => ws
  else
    { ws with closed := ws.registry.map Prod.snd ++ ws.closed
              registry := [] }

/-- `compileFile`, the orchestrator entry point.  Its `try`/`catch`
converts exceptions raised synchronously in this body into a failed
result, but the single-file and project branches `return` the delegate
call without `await`, so a rejection from `compileSingleFile` or
`compileProject` bypasses the `catch` and escapes to the caller —
embedded by passing the delegate's `Except` through unchanged. -/
def compileFile (eng : Engine) (ws : WatcherState) (fs : FileSystem) (opts : CompileOptions) :
    Except String (WatcherState × FileSystem × CompilationResult) :=
  if opts.watch.getD false && optStrTruthy opts.filePath then
    let r := setupWatchMode ws opts
    .ok (r.1, fs, r.2)
  else if optStrTruthy opts.projectPath then
    (compileProject eng fs opts).map (fun r => (ws, r.1, r.2))
  else if optStrTruthy opts.filePath then
    (compileSingleFile eng fs opts).map (fun r => (ws, r.1, r.2))
  else
    .ok (ws, fs,
      { success := false
        errors := some [{ file := "unknown", line := 0, column := 0,
                          message := "Either filePath or projectPath must be provided",
                          code := "COMPILE_ERROR", severity := Severity.error }] })

/-! ### Watch-session operation sequences -/

inductive WatchOp where
  | register (opts : CompileOptions)
  | stop (filePath : Option String)

def applyWatchOp (ws : WatcherState) : WatchOp → WatcherState
  | .register opts => (setupWatchMode ws opts).1
  | .stop fp => stopWatching ws fp

def initialWatcherState : WatcherState := {}

def runWatchOps (ops : List WatchOp) : WatcherState :=
  ops.foldl applyWatchOp initialWatcherState

/-- Number of subscriptions opened for `key` whose `close()` has never
been invoked. -/
def liveSubsForKey (ws : WatcherState) (key : String) : Nat :=
  (ws.created.filter (fun p => p.2 == key && !(ws.closed.contains p.1))).length

/-! ### Config manager (`TypeScriptConfigManager`) -/

def isNull : JValue → Bool
  | .null => true
  | _ => false

def isUndefined : JValue → Bool
  | .undefined => true
  | _ => false

def isArr : JValue → Bool
  | .arr _ => true
  | _ => false

/-- JS template-literal rendering of a value, as interpolated into the
validation error messages. -/
def jToDisplay : JValue → String
  | .undefined => "undefined"
  | .null => "null"
  | .bool b => if b then "true" else "false"
  | .num n => toString n
  | .str s => s
  | .arr _ => "array"
  | .obj _ => "object Object"

def validTargets : List String :=
  ["ES3", "ES5", "ES6", "ES2015", "ES2016", "ES2017", "ES2018", "ES2019",
   "ES2020", "ES2021", "ES2022", "ESNext"]

def validModules : List String :=
  ["None", "CommonJS", "AMD", "System", "UMD", "ES6", "ES2015", "ES2020",
   "ES2022", "ESNext"]

def validResolutions : List String := ["node", "classic"]

/-- `Array.prototype.includes` with `===` against a list of string
literals. -/
def jIncludesStr (l : List String) (v : JValue) : Bool :=
  l.any (fun s => match v with | .str t => t == s | _ => false)

/-- One `if (compilerOptions.key) { if (!valid.includes(...)) push }`
block of `validateConfig`. -/
def enumOptionErrors (co : JValue) (key : String) (valid : List String)
    (msgHead msgMid : String) : List String :=
  let v := objGet co key
  if jTruthy v then
    if jIncludesStr valid v then []
    else [msgHead ++ jToDisplay v ++ msgMid ++ String.intercalate ", " valid]
  else []

/-- The `booleanOptions.forEach` / `stringOptions.forEach` blocks:
flag any present field of the wrong `typeof`. -/
def typedOptionErrors (co : JValue) (keys : List String) (ty msgSuffix : String) :
    List String :=
  (keys.map (fun o =>
    let v := objGet co o
    if !(isUndefined v) && jTypeof v != ty then [o ++ msgSuffix] else [])).flatten

/-- The per-option checks inside `validateConfig`'s
`compilerOptions` branch, in source order. -/
def compilerOptionsErrors (co : JValue) : List String :=
  enumOptionErrors co "target" validTargets "Invalid target: " ". Valid targets are: " ++
  enumOptionErrors co "module" validModules "Invalid module: " ". Valid modules are: " ++
  enumOptionErrors co "moduleResolution" validResolutions
    "Invalid moduleResolution: " ". Valid options are: " ++
  typedOptionErrors co
    ["strict", "esModuleInterop", "skipLibCheck", "forceConsistentCasingInFileNames",
     "declaration", "sourceMap"] "boolean" " must be a boolean value" ++
  typedOptionErrors co ["outDir", "rootDir", "baseUrl"] "string" " must be a string value"

/-- The `include`/`exclude` checks of `validateConfig`. -/
def arrayFieldErrors (v : JValue) (notArrMsg allStrMsg : String) : List String :=
  if jTruthy v && !(isArr v) then [notArrMsg]
  else if jTruthy v then
    match v with
    | .arr xs => if xs.any (fun x => jTypeof x != "string") then [allStrMsg] else []
    | _ => []
  else []

structure ValidationResult where
  isValid : Bool
  errors : List String
deriving Repr, DecidableEq

/-- `validateConfig` from the config manager. -/
def validateConfig (config : JValue) : ValidationResult :=
  if jTypeof config != "object" || isNull config then
    { isValid := false, errors := ["Configuration must be an object"] }
  else
    let co := objGet config "compilerOptions"
    let coErrs :=
      if jTruthy co then
        if jTypeof co != "object" then ["compilerOptions must be an object"]
        else compilerOptionsErrors co
      else []
    let incErrs := arrayFieldErrors (objGet config "include")
      "include must be an array of strings" "All include entries must be strings"
    let excErrs := arrayFieldErrors (objGet config "exclude")
      "exclude must be an array of strings" "All exclude entries must be strings"
    let errors := coErrs ++ incErrs ++ excErrs
    { isValid := errors.isEmpty, errors := errors }

/-- The merge in `updateTsConfig`:
`{ ...configFile.config, compilerOptions: { ...configFile.config.compilerOptions, ...options.options } }`. -/
def mergeTsConfig (cfg : JValue) (opts : List (String × JValue)) : JValue :=
  .obj (mergeFields (spreadFields cfg)
    [("compilerOptions", .obj (mergeFields (spreadFields (objGet cfg "compilerOptions")) opts))])

structure UpdateResult where
  success : Bool
  message : String
  updatedConfig : Option JValue := none

/-- `updateTsConfig`.  The missing-file `throw` sits before the
`try`, so it escapes (`.error`); everything inside the `try` is caught
and returned as `success: false` — in particular a failed validation
returns before any write, and a successful one writes the full merged
configuration (the write capability is atomic; a JS write failure would
be caught into a failed result without a partial file). -/
def updateTsConfig (eng : Engine) (fs : FileSystem) (options : TsConfigUpdateOptions) :
    Except String (FileSystem × UpdateResult) :=
  let configPath := resolvePath options.configPath
  if ¬ fileExists fs configPath then .error ("tsconfig.json not found at: " ++ configPath)
  else
    match readFileContent fs configPath with
    | .error e => .ok (fs, { success := false, message := "Error reading tsconfig.json: " ++ e })
    | .ok content =>
        match eng.readConfig content with
        | .error e =>
            .ok (fs, { success := false, message := "Error reading tsconfig.json: " ++ e })
        | .ok cfg =>
            if isNull cfg then
              .ok (fs, { success := false,
                         message := "Cannot read properties of null reading compilerOptions" })
            else
              let updatedConfig := mergeTsConfig cfg options.options
              let validationResult := validateConfig updatedConfig
              if !validationResult.isValid then
                .ok (fs,
                  { success := false
                    message := "Configuration validation failed: " ++
                      String.intercalate ", " validationResult.errors })
              else
                .ok (writeFileFs fs configPath (eng.stringify updatedConfig),
                  { success := true
                    message := "TypeScript configuration updated successfully"
                    updatedConfig := some updatedConfig })

/-! ### Specification-side definitions and proof fixtures -/

/-- The category-to-severity mapping exactly as the specification words
it: Error→error, Warning→warning, Suggestion or Message→info, any other
category fail-closed to error (over the closed enum the last clause is
vacuous).  Stated from the spec for comparison against the two mappings
in the source. -/
def specSeverityMap : DiagnosticCategory → Severity
  | .error => .error
  | .warning => .warning
  | .suggestion => .info
  | .message => .info

/-- Watcher-ledger invariant: subscription ids are allocated below
`nextId`, no id is opened twice, and every live (opened, never closed)
subscription is the one its key's registry slot holds. -/
def WatchInv (ws : WatcherState) : Prop :=
  (∀ p ∈ ws.created, p.1 < ws.nextId) ∧
  (∀ i ∈ ws.closed, i < ws.nextId) ∧
  (∀ p ∈ ws.registry, p.2 < ws.nextId) ∧
  (ws.created.map Prod.fst).Nodup ∧
  (∀ p ∈ ws.created, p.1 ∉ ws.closed → alookup ws.registry p.2 = some p.1)

/-- A concrete engine for evaluating the embedding on closed inputs:
transpilation tags its input, configuration reading always yields
`cfg`, programs produce no diagnostics. -/
def sampleEngine (cfg : JValue) : Engine :=
  { transpile := fun src fileName _ =>
      { outputText := "compiled:" ++ fileName ++ ":" ++ src
        sourceMapText := some "sourcemap"
        diagnostics := [] }
    readConfig := fun _ => .ok cfg
    parseConfig := fun c basePath =>
      { options := spreadFields (objGet c "compilerOptions")
        fileNames := [basePath]
        errors := [] }
    preEmitDiagnostics := fun _ _ => []
    emit := fun _ _ => {}
    stringify := fun _ => "serialized" }

def nullEngine : Engine := sampleEngine .null

/-- Fixture: the top-level fields of a small tsconfig object. -/
def cfgFixtureFields : List (String × JValue) :=
  [("compilerOptions", .obj [("strict", .bool true), ("target", .str "ES2020")]),
   ("include", .arr [.str "src"])]

/-- Fixture: a tsconfig object with one compiler option and an include
list. -/
def cfgFixture : JValue := .obj cfgFixtureFields

def engFixture : Engine := sampleEngine cfgFixture

def fsFixture : FileSystem := [("/proj/tsconfig.json", .file "CONTENT")]

/-- Fixture: an update carrying an invalid `target` enum value. -/
def badUpdateFixture : TsConfigUpdateOptions :=
  { configPath := "/proj/tsconfig.json", options := [("target", .str "ES7")] }

/-- Fixture: a validating update of `target`. -/
def goodUpdateFixture : TsConfigUpdateOptions :=
  { configPath := "/proj/tsconfig.json", options := [("target", .str "ES2021")] }

/-- Fixture: a watcher state with one session, for the shutdown
witnesses. -/
def wsFixture : WatcherState :=
  (setupWatchMode initialWatcherState { filePath := some "/w/a.ts", watch := some true }).1

/-! ### Helper lemmas -/

theorem optOr_none_right {α : Type} (o : Option α) : optOr o none = o := by
  cases o <;> rfl

theorem alookup_mem {α : Type} {l : List (String × α)} {k : String} {v : α}
    (h : alookup l k = some v) : (k, v) ∈ l := by
  induction l with
  | nil => simp [alookup] at h
  | cons hd tl ih =>
      obtain ⟨k', w⟩ := hd
      by_cases hk : k' = k
      · subst hk
        simp [alookup] at h
        simp [h]
      · simp [alookup, hk] at h
        exact List.mem_cons_of_mem _ (ih h)

theorem alookup_setAssoc_self {α : Type} (l : List (String × α)) (k : String) (v : α) :
    alookup (setAssoc l k v) k = some v := by
  unfold setAssoc
  by_cases h : (alookup l k).isSome
  · rw [if_pos h]
    have := alookup_map_adjust l (fun key val => if key = k then v else val) k
    rw [this]
    cases hl : alookup l k with
    | none => rw [hl] at h; simp at h
    | some w => simp
  · rw [if_neg h]
    rw [alookup_append]
    cases hl : alookup l k with
    | none => simp [optOr, alookup]
    | some w => rw [hl] at h; simp at h

theorem alookup_setAssoc_other {α : Type} (l : List (String × α)) (k : String) (v : α)
    (k' : String) (h : k' ≠ k) : alookup (setAssoc l k v) k' = alookup l k' := by
  unfold setAssoc
  by_cases hs : (alookup l k).isSome
  · rw [if_pos hs]
    have := alookup_map_adjust l (fun key val => if key = k then v else val) k'
    rw [this]
    cases hl : alookup l k' with
    | none => simp
    | some w => simp [h]
  · rw [if_neg hs, alookup_append]
    have hne : ¬ k = k' := fun hh => h hh.symm
    have : alookup [(k, v)] k' = none := by simp [alookup, hne]
    rw [this, optOr_none_right]

theorem mem_setAssoc {α : Type} {l : List (String × α)} {k : String} {v : α}
    {p : String × α} (h : p ∈ setAssoc l k v) : p.2 = v ∨ p ∈ l := by
  unfold setAssoc at h
  by_cases hs : (alookup l k).isSome
  · rw [if_pos hs] at h
    obtain ⟨q, hq, he⟩ := List.mem_map.mp h
    by_cases hk : q.1 = k
    · left; rw [← he]; simp [hk]
    · right; rw [← he]; simpa [hk] using hq
  · rw [if_neg hs] at h
    rcases List.mem_append.mp h with hl | hr
    · right; exact hl
    · left; simp at hr; rw [hr]

theorem fileExists_of_read_ok {fs : FileSystem} {p : String} {c : String}
    (h : readFileContent fs p = .ok c) : fileExists fs p = true := by
  unfold readFileContent at h
  unfold fileExists
  cases he : alookup fs p with
  | none => rw [he] at h; simp at h
  | some e => simp

theorem mem_takeWhile_pred {α : Type} (p : α → Bool) :
    ∀ (l : List α) (a : α), a ∈ l.takeWhile p → p a = true := by
  intro l
  induction l with
  | nil => intro a ha; simp [List.takeWhile] at ha
  | cons hd tl ih =>
      intro a ha
      rw [List.takeWhile_cons] at ha
      by_cases hp : p hd = true
      · rw [if_pos hp] at ha
        rcases List.mem_cons.mp ha with h1 | h2
        · rw [h1]; exact hp
        · exact ih a h2
      · rw [if_neg hp] at ha
        simp at ha

theorem basenameFull_idem (p : String) : basenameFull (basenameFull p) = basenameFull p := by
  unfold basenameFull
  apply congrArg String.mk
  apply congrArg List.reverse
  have hdata : (String.mk ((p.data.reverse.takeWhile (fun c => c ≠ '/')).reverse)).data
      = (p.data.reverse.takeWhile (fun c => c ≠ '/')).reverse := rfl
  rw [hdata, List.reverse_reverse]
  apply List.takeWhile_eq_self_iff.mpr
  intro c hc
  exact mem_takeWhile_pred _ _ c hc

theorem extnamePath_basenameFull (p : String) :
    extnamePath (basenameFull p) = extnamePath p := by
  unfold extnamePath
  rw [basenameFull_idem]

theorem basenameStripExt_basenameFull (p : String) :
    basenameStripExt (basenameFull p) = basenameStripExt p := by
  unfold basenameStripExt
  rw [basenameFull_idem, extnamePath_basenameFull]

/-- The `forEach` of `getDiagnosticSummary` from an arbitrary
accumulator: each counter grows by the count of its categories. -/
theorem summary_foldl_counts (ds : List Diagnostic) (s : DiagnosticSummary) :
    ds.foldl summaryStep s =
      { errorCount := s.errorCount + ds.countP (fun d => d.category == DiagnosticCategory.error)
        warningCount :=
          s.warningCount + ds.countP (fun d => d.category == DiagnosticCategory.warning)
        infoCount := s.infoCount + ds.countP (fun d =>
          d.category == DiagnosticCategory.suggestion
            || d.category == DiagnosticCategory.message) } := by
  induction ds generalizing s with
  | nil => simp
  | cons d tl ih =>
      rw [List.foldl_cons, ih (summaryStep s d)]
      cases hc : d.category <;>
        simp [summaryStep, hc, List.countP_cons, DiagnosticSummary.mk.injEq] <;> omega

theorem category_counts_total (ds : List Diagnostic) :
    ds.countP (fun d => d.category == DiagnosticCategory.error)
      + ds.countP (fun d => d.category == DiagnosticCategory.warning)
      + ds.countP (fun d =>
          d.category == DiagnosticCategory.suggestion
            || d.category == DiagnosticCategory.message)
      = ds.length := by
  induction ds with
  | nil => simp
  | cons d tl ih =>
      cases hc : d.category <;> simp [List.countP_cons, hc] <;> omega

/-! ### Claim C1 — option precedence -/

/-- C1, counterexample.  The claim asserts request > ambient config >
default for every key in both paths.  In the single-file compile path a
request-supplied `sourceMap: true` loses to a tsconfig `sourceMap:
false` (`Object.assign(base, parsed)`); in the check path a tsconfig
`target` (ES5 = 1) loses to the built-in default (ES2020 = 7) even
though the request cannot supply `target` at all
(`{...parsed, ...base}`). -/
theorem effective_options_precedence_counterexample :
    alookup (effectiveCompileOptions { filePath := some "/a.ts", sourceMap := some true }
        [("sourceMap", JValue.bool false)]) "sourceMap"
      = some (JValue.bool false)
    ∧ alookup (effectiveCheckOptions { filePath := "/a.ts" } [("target", JValue.num 1)])
        "target"
      = some (JValue.num 7) := by
  constructor <;> rfl

/-- C1, amended.  The actual per-key precedence: in `compileSingleFile`
the parsed tsconfig overrides the request-derived base for every key the
tsconfig sets, the base surviving only for keys the tsconfig omits; in
`checkSingleFile` and `getDiagnostics` the request-derived base (built-in
defaults plus the request's `strict`/`skipLibCheck` values) overrides
the parsed tsconfig for every key the base sets, the tsconfig surviving
only for other keys. -/
theorem effective_options_precedence_amended (copts : CompileOptions)
    (topts : TypeCheckOptions) (parsed : List (String × JValue)) (k : String) :
    alookup (effectiveCompileOptions copts parsed) k
      = optOr (alookup parsed k) (alookup (compileBaseOptions copts) k)
    ∧ alookup (effectiveCheckOptions topts parsed) k
      = optOr (alookup (checkBaseOptions topts) k) (alookup parsed k)
    ∧ alookup (effectiveDiagOptions parsed) k
      = optOr (alookup diagBaseOptions k) (alookup parsed k) :=
  ⟨alookup_mergeFields _ _ _, alookup_mergeFields _ _ _, alookup_mergeFields _ _ _⟩

/-! ### Claim C2 — severity mapping -/

/-- C2, counterexample.  The claim asserts the fixed mapping (Suggestion
→ info) also for the inline conversion in `compileSingleFile` /
`compileProject`; that conversion sends every non-Error category,
Suggestion included, to `warning`. -/
theorem inline_severity_suggestion_counterexample :
    inlineSeverity DiagnosticCategory.suggestion = Severity.warning
    ∧ inlineFormatDiagnostic "/a.ts" { category := DiagnosticCategory.suggestion }
      = { file := "/a.ts", line := 0, column := 0, message := "", code := "TS0",
          severity := Severity.warning } := by
  constructor <;> rfl

/-- C2, amended.  `formatDiagnostic` realizes exactly the claimed fixed
mapping (severity a function of the category alone); the inline
conversion in `compileSingleFile` and `compileProject` instead maps
Error to `error` and every other category (Warning, Suggestion, Message)
to `warning`, never producing `info`. -/
theorem severity_mapping_amended (d : Diagnostic) (f : String) :
    (formatDiagnostic d).severity = specSeverityMap d.category
    ∧ (inlineFormatDiagnostic f d).severity
      = (if d.category = DiagnosticCategory.error then Severity.error else Severity.warning) := by
  constructor
  · show severityOfCategory d.category = specSeverityMap d.category
    cases d.category <;> rfl
  · rfl

/-! ### Claim C3 — summary counts -/

/-- C3: `getDiagnosticSummary` counts diagnostics exactly by the
normalized severity `formatDiagnostic` assigns them, every diagnostic
landing in exactly one of the three counters. -/
theorem diagnostic_summary_counts (ds : List Diagnostic) :
    (getDiagnosticSummary ds).errorCount
      = ((ds.map formatDiagnostic).filter (fun d => d.severity == Severity.error)).length
    ∧ (getDiagnosticSummary ds).warningCount
      = ((ds.map formatDiagnostic).filter (fun d => d.severity == Severity.warning)).length
    ∧ (getDiagnosticSummary ds).infoCount
      = ((ds.map formatDiagnostic).filter (fun d => d.severity == Severity.info)).length
    ∧ (getDiagnosticSummary ds).errorCount + (getDiagnosticSummary ds).warningCount
        + (getDiagnosticSummary ds).infoCount
      = ds.length := by
  have hsum := summary_foldl_counts ds ⟨0, 0, 0⟩
  have hg : getDiagnosticSummary ds =
      { errorCount := ds.countP (fun d => d.category == DiagnosticCategory.error)
        warningCount := ds.countP (fun d => d.category == DiagnosticCategory.warning)
        infoCount := ds.countP (fun d =>
          d.category == DiagnosticCategory.suggestion
            || d.category == DiagnosticCategory.message) } := by
    unfold getDiagnosticSummary
    rw [hsum]
    simp
  have hfe : ((ds.map formatDiagnostic).filter (fun d => d.severity == Severity.error)).length
      = ds.countP (fun d => d.category == DiagnosticCategory.error) := by
    rw [← List.countP_eq_length_filter, List.countP_map]
    apply List.countP_congr
    intro d _
    obtain ⟨fn, lc, mt, cd, cat⟩ := d
    cases cat <;> simp [Function.comp, formatDiagnostic, severityOfCategory]
  have hfw : ((ds.map formatDiagnostic).filter (fun d => d.severity == Severity.warning)).length
      = ds.countP (fun d => d.category == DiagnosticCategory.warning) := by
    rw [← List.countP_eq_length_filter, List.countP_map]
    apply List.countP_congr
    intro d _
    obtain ⟨fn, lc, mt, cd, cat⟩ := d
    cases cat <;> simp [Function.comp, formatDiagnostic, severityOfCategory]
  have hfi : ((ds.map formatDiagnostic).filter (fun d => d.severity == Severity.info)).length
      = ds.countP (fun d =>
          d.category == DiagnosticCategory.suggestion
            || d.category == DiagnosticCategory.message) := by
    rw [← List.countP_eq_length_filter, List.countP_map]
    apply List.countP_congr
    intro d _
    obtain ⟨fn, lc, mt, cd, cat⟩ := d
    cases cat <;> simp [Function.comp, formatDiagnostic, severityOfCategory]
  refine ⟨?_, ?_, ?_, ?_⟩
  · rw [hg]; exact hfe.symm
  · rw [hg]; exact hfw.symm
  · rw [hg]; exact hfi.symm
  · rw [hg]; exact category_counts_total ds

/-! ### Claim C4 — checkTypes dispatch -/

/-- C4: the dispatch bug evaluated.  `path.resolve` strips trailing
separators, so `!filePath.endsWith('/')` holds for every existing
target but the filesystem root; an existing directory `/p` (with or
without a trailing slash in the request) is dispatched to
`checkSingleFile`, never to `checkProject` — whereas `checkProject`
would have failed fatally for the missing `tsconfig.json` exactly as
the claim demands. -/
theorem check_types_directory_dispatch (eng : Engine) :
    checkTypes eng [("/p", FsEntry.dir)] { filePath := "/p" }
      = checkSingleFile eng [("/p", FsEntry.dir)] { filePath := "/p" }
    ∧ checkTypes eng [("/p", FsEntry.dir)] { filePath := "/p/" }
      = checkSingleFile eng [("/p", FsEntry.dir)] { filePath := "/p/" }
    ∧ checkProject eng [("/p", FsEntry.dir)] { filePath := "/p" }
      = Except.error "tsconfig.json not found in /p" := by
  refine ⟨?_, ?_, ?_⟩ <;> rfl

/-! ### Claim C5 — at most one live watch subscription per key -/

theorem setupWatchMode_state_some {ws : WatcherState} {opts : CompileOptions} {oldId : Nat}
    (h : alookup ws.registry (resolvePath (opts.filePath.getD "")) = some oldId) :
    (setupWatchMode ws opts).1 =
      { registry := setAssoc ws.registry (resolvePath (opts.filePath.getD "")) ws.nextId
        created := (ws.nextId, resolvePath (opts.filePath.getD "")) :: ws.created
        closed := oldId :: ws.closed
        nextId := ws.nextId + 1 } := by
  simp [setupWatchMode, h]

theorem setupWatchMode_state_none {ws : WatcherState} {opts : CompileOptions}
    (h : alookup ws.registry (resolvePath (opts.filePath.getD "")) = none) :
    (setupWatchMode ws opts).1 =
      { registry := setAssoc ws.registry (resolvePath (opts.filePath.getD "")) ws.nextId
        created := (ws.nextId, resolvePath (opts.filePath.getD "")) :: ws.created
        closed := ws.closed
        nextId := ws.nextId + 1 } := by
  simp [setupWatchMode, h]

theorem stopWatching_state_key_some {ws : WatcherState} {fp : Option String} {id : Nat}
    (ht : optStrTruthy fp = true)
    (h : alookup ws.registry (resolvePath (fp.getD "")) = some id) :
    stopWatching ws fp =
      { registry := ws.registry.filter (fun p => p.1 ≠ resolvePath (fp.getD ""))
        created := ws.created
        closed := id :: ws.closed
        nextId := ws.nextId } := by
  simp [stopWatching, ht, h]

theorem stopWatching_state_key_none {ws : WatcherState} {fp : Option String}
    (ht : optStrTruthy fp = true)
    (h : alookup ws.registry (resolvePath (fp.getD "")) = none) :
    stopWatching ws fp = ws := by
  simp [stopWatching, ht, h]

theorem stopWatching_state_all {ws : WatcherState} {fp : Option String}
    (ht : optStrTruthy fp = false) :
    stopWatching ws fp =
      { registry := []
        created := ws.created
        closed := ws.registry.map Prod.snd ++ ws.closed
        nextId := ws.nextId } := by
  simp [stopWatching, ht]

theorem watchInv_init : WatchInv initialWatcherState := by
  refine ⟨?_, ?_, ?_, ?_, ?_⟩ <;> simp [initialWatcherState, WatchInv]

theorem watchInv_setup (ws : WatcherState) (opts : CompileOptions) (h : WatchInv ws) :
    WatchInv (setupWatchMode ws opts).1 := by
  obtain ⟨hc, hcl, hr, hnd, hlive⟩ := h
  cases hreg : alookup ws.registry (resolvePath (opts.filePath.getD "")) with
  | some oldId =>
      rw [setupWatchMode_state_some hreg]
      have holdlt : oldId < ws.nextId := hr _ (alookup_mem hreg)
      refine ⟨?_, ?_, ?_, ?_, ?_⟩ <;> dsimp only
      · intro p hp
        rcases List.mem_cons.mp hp with h1 | h2
        · rw [h1]; exact Nat.lt_succ_self _
        · exact Nat.lt_succ_of_lt (hc _ h2)
      · intro i hi
        rcases List.mem_cons.mp hi with h1 | h2
        · rw [h1]; exact Nat.lt_succ_of_lt holdlt
        · exact Nat.lt_succ_of_lt (hcl _ h2)
      · intro p hp
        rcases mem_setAssoc hp with h1 | h2
        · rw [h1]; exact Nat.lt_succ_self _
        · exact Nat.lt_succ_of_lt (hr _ h2)
      · refine List.nodup_cons.mpr ⟨?_, hnd⟩
        intro hmem
        obtain ⟨p, hp, hpe⟩ := List.mem_map.mp hmem
        exact absurd (hpe ▸ hc _ hp) (Nat.lt_irrefl _)
      · intro p hp hpc
        rcases List.mem_cons.mp hp with h1 | h2
        · rw [h1]
          exact alookup_setAssoc_self _ _ _
        · have hpnotold : p.1 ∉ ws.closed := by
            intro hx
            exact hpc (List.mem_cons_of_mem _ hx)
          have hlook := hlive _ h2 hpnotold
          by_cases hpk : p.2 = resolvePath (opts.filePath.getD "")
          · exfalso
            rw [hpk, hreg] at hlook
            have : p.1 = oldId := by injection hlook.symm
            exact hpc (this ▸ List.mem_cons_self _ _)
          · rw [alookup_setAssoc_other _ _ _ _ hpk]
            exact hlook
  | none =>
      rw [setupWatchMode_state_none hreg]
      refine ⟨?_, ?_, ?_, ?_, ?_⟩ <;> dsimp only
      · intro p hp
        rcases List.mem_cons.mp hp with h1 | h2
        · rw [h1]; exact Nat.lt_succ_self _
        · exact Nat.lt_succ_of_lt (hc _ h2)
      · intro i hi
        exact Nat.lt_succ_of_lt (hcl _ hi)
      · intro p hp
        rcases mem_setAssoc hp with h1 | h2
        · rw [h1]; exact Nat.lt_succ_self _
        · exact Nat.lt_succ_of_lt (hr _ h2)
      · refine List.nodup_cons.mpr ⟨?_, hnd⟩
        intro hmem
        obtain ⟨p, hp, hpe⟩ := List.mem_map.mp hmem
        exact absurd (hpe ▸ hc _ hp) (Nat.lt_irrefl _)
      · intro p hp hpc
        rcases List.mem_cons.mp hp with h1 | h2
        · rw [h1]
          exact alookup_setAssoc_self _ _ _
        · have hlook := hlive _ h2 hpc
          by_cases hpk : p.2 = resolvePath (opts.filePath.getD "")
          · exfalso
            rw [hpk, hreg] at hlook
            exact Option.noConfusion hlook
          · rw [alookup_setAssoc_other _ _ _ _ hpk]
            exact hlook

theorem watchInv_stop (ws : WatcherState) (fp : Option String) (h : WatchInv ws) :
    WatchInv (stopWatching ws fp) := by
  obtain ⟨hc, hcl, hr, hnd, hlive⟩ := h
  by_cases ht : optStrTruthy fp = true
  · cases hreg : alookup ws.registry (resolvePath (fp.getD "")) with
    | some id =>
        rw [stopWatching_state_key_some ht hreg]
        have hidlt : id < ws.nextId := hr _ (alookup_mem hreg)
        refine ⟨hc, ?_, ?_, hnd, ?_⟩ <;> dsimp only
        · intro i hi
          rcases List.mem_cons.mp hi with h1 | h2
          · rw [h1]; exact hidlt
          · exact hcl _ h2
        · intro p hp
          exact hr _ (List.mem_of_mem_filter hp)
        · intro p hp hpc
          have hpid : p.1 ≠ id := fun hx => hpc (hx ▸ List.mem_cons_self _ _)
          have hpcl : p.1 ∉ ws.closed := fun hx => hpc (List.mem_cons_of_mem _ hx)
          have hlook := hlive _ hp hpcl
          by_cases hpk : p.2 = resolvePath (fp.getD "")
          · exfalso
            rw [hpk, hreg] at hlook
            have : p.1 = id := by injection hlook.symm
            exact hpid this
          · have hq : (decide (p.2 ≠ resolvePath (fp.getD ""))) = true := by
              simp [hpk]
            calc alookup (ws.registry.filter (fun q => q.1 ≠ resolvePath (fp.getD ""))) p.2
                = alookup ws.registry p.2 :=
                  alookup_filter_key ws.registry
                    (fun s => decide (s ≠ resolvePath (fp.getD ""))) p.2 hq
              _ = some p.1 := hlook
    | none =>
        rw [stopWatching_state_key_none ht hreg]
        exact ⟨hc, hcl, hr, hnd, hlive⟩
  · rw [stopWatching_state_all (Bool.not_eq_true _ ▸ eq_false_of_ne_true ht)]
    refine ⟨hc, ?_, ?_, hnd, ?_⟩ <;> dsimp only
    · intro i hi
      rcases List.mem_append.mp hi with h1 | h2
      · obtain ⟨p, hp, hpe⟩ := List.mem_map.mp h1
        exact hpe ▸ hr _ hp
      · exact hcl _ h2
    · intro p hp
      simp at hp
    · intro p hp hpc
      exfalso
      have hpcl : p.1 ∉ ws.closed := fun hx =>
        hpc (List.mem_append.mpr (Or.inr hx))
      have hlook := hlive _ hp hpcl
      have hmem : p.1 ∈ ws.registry.map Prod.snd :=
        List.mem_map.mpr ⟨(p.2, p.1), alookup_mem hlook, rfl⟩
      exact hpc (List.mem_append.mpr (Or.inl hmem))

theorem watchInv_foldl (ops : List WatchOp) :
    ∀ ws : WatcherState, WatchInv ws → WatchInv (ops.foldl applyWatchOp ws) := by
  induction ops with
  | nil => intro ws h; exact h
  | cons op tl ih =>
      intro ws h
      rw [List.foldl_cons]
      apply ih
      cases op with
      | register opts => exact watchInv_setup ws opts h
      | stop fp => exact watchInv_stop ws fp h

theorem watchInv_run (ops : List WatchOp) : WatchInv (runWatchOps ops) :=
  watchInv_foldl ops initialWatcherState watchInv_init

theorem live_le_one (ws : WatcherState) (key : String) (h : WatchInv ws) :
    liveSubsForKey ws key ≤ 1 := by
  obtain ⟨hc, hcl, hr, hnd, hlive⟩ := h
  unfold liveSubsForKey
  set pred := fun p : Nat × String => p.2 == key && !(ws.closed.contains p.1) with hpred
  have hsub : (ws.created.filter pred).Sublist ws.created := List.filter_sublist _
  have hlnd : ((ws.created.filter pred).map Prod.fst).Nodup :=
    (hsub.map Prod.fst).nodup hnd
  have hid : ∀ p ∈ ws.created.filter pred, alookup ws.registry key = some p.1 := by
    intro p hp
    obtain ⟨hmem, hpr⟩ := List.mem_filter.mp hp
    rw [hpred] at hpr
    have hand := (Bool.and_eq_true _ _).mp hpr
    have h1 : p.2 = key := eq_of_beq hand.1
    have h2 : p.1 ∉ ws.closed := by
      intro hx
      have hcont : ws.closed.contains p.1 = true := List.elem_eq_true_of_mem hx
      rw [hcont] at hand
      exact Bool.noConfusion hand.2
    exact h1 ▸ hlive _ hmem h2
  cases hfl : ws.created.filter pred with
  | nil => simp [hfl]
  | cons p tl =>
      cases tl with
      | nil => simp [hfl]
      | cons q rest =>
          exfalso
          have hp : p ∈ ws.created.filter pred := by
            rw [hfl]; exact List.mem_cons_self _ _
          have hq : q ∈ ws.created.filter pred := by
            rw [hfl]; exact List.mem_cons_of_mem _ (List.mem_cons_self _ _)
          have hpq : p.1 = q.1 := by
            have h1 := hid p hp
            have h2 := hid q hq
            rw [h1] at h2
            injection h2
          rw [hfl] at hlnd
          simp only [List.map_cons, List.nodup_cons] at hlnd
          exact hlnd.1 (List.mem_cons.mpr (Or.inl hpq))

theorem live_after_setup (ws : WatcherState) (opts : CompileOptions) (h : WatchInv ws) :
    liveSubsForKey (setupWatchMode ws opts).1 (resolvePath (opts.filePath.getD "")) = 1 := by
  obtain ⟨hc, hcl, hr, hnd, hlive⟩ := h
  refine Nat.le_antisymm
    (live_le_one _ _ (watchInv_setup ws opts ⟨hc, hcl, hr, hnd, hlive⟩)) ?_
  cases hreg : alookup ws.registry (resolvePath (opts.filePath.getD "")) with
  | some oldId =>
      rw [setupWatchMode_state_some hreg]
      unfold liveSubsForKey
      have hnotin : ws.nextId ∉ oldId :: ws.closed := by
        intro hx
        rcases List.mem_cons.mp hx with h1 | h2
        · have hlt := hr _ (alookup_mem hreg)
          rw [← h1] at hlt
          exact Nat.lt_irrefl _ hlt
        · exact Nat.lt_irrefl _ (hcl _ h2)
      have hcont : (oldId :: ws.closed).contains ws.nextId = false := by
        cases hcc : (oldId :: ws.closed).contains ws.nextId with
        | false => rfl
        | true => exact absurd (List.mem_of_elem_eq_true hcc) hnotin
      dsimp only
      rw [List.filter_cons]
      have hpred : ((resolvePath (opts.filePath.getD "") == resolvePath (opts.filePath.getD ""))
          && !((oldId :: ws.closed).contains ws.nextId)) = true := by
        simp
        constructor
        · intro hx
          exact hnotin (by rw [hx]; exact List.mem_cons_self _ _)
        · intro hx
          exact hnotin (List.mem_cons_of_mem _ hx)
      rw [if_pos hpred, List.length_cons]
      omega
  | none =>
      rw [setupWatchMode_state_none hreg]
      unfold liveSubsForKey
      have hnotin : ws.nextId ∉ ws.closed := fun hx => Nat.lt_irrefl _ (hcl _ hx)
      have hcont : ws.closed.contains ws.nextId = false := by
        cases hcc : ws.closed.contains ws.nextId with
        | false => rfl
        | true => exact absurd (List.mem_of_elem_eq_true hcc) hnotin
      dsimp only
      rw [List.filter_cons]
      have hpred : ((resolvePath (opts.filePath.getD "") == resolvePath (opts.filePath.getD ""))
          && !(ws.closed.contains ws.nextId)) = true := by
        simp
        exact hnotin
      rw [if_pos hpred, List.length_cons]
      omega

/-- C5: over every operation sequence on the watcher registry, every
key has at most one live (opened, never closed) subscription, and a
registration always leaves exactly one live subscription for its key —
re-registering closes the old subscription first. -/
theorem watch_at_most_one_live_subscription (ops : List WatchOp) (key : String)
    (opts : CompileOptions) :
    liveSubsForKey (runWatchOps ops) key ≤ 1
    ∧ liveSubsForKey ((setupWatchMode (runWatchOps ops) opts).1)
        (resolvePath (opts.filePath.getD "")) = 1 :=
  ⟨live_le_one _ _ (watchInv_run ops), live_after_setup _ _ (watchInv_run ops)⟩

/-! ### Claim C6 — stopWatching idempotence -/

/-- C6: the stop-all form of `stopWatching` is idempotent, and stopping
a (nonempty) path with no registered session leaves the whole state —
every other session included — untouched. -/
theorem stop_watching_idempotent (ws : WatcherState) (fp : String) :
    stopWatching (stopWatching ws none) none = stopWatching ws none
    ∧ (fp ≠ "" → alookup ws.registry (resolvePath fp) = none →
        stopWatching ws (some fp) = ws) := by
  constructor
  · rfl
  · intro h1 h2
    have ht : optStrTruthy (some fp) = true := by simp [optStrTruthy, h1]
    exact stopWatching_state_key_none ht h2

theorem stop_watching_idempotent_witness :
    stopWatching (stopWatching wsFixture none) none = stopWatching wsFixture none
    ∧ stopWatching wsFixture (some "/w/b.ts") = wsFixture :=
  ⟨(stop_watching_idempotent wsFixture "/w/b.ts").1,
   (stop_watching_idempotent wsFixture "/w/b.ts").2 (by decide) (by rfl)⟩

/-! ### Claim C7 — updateTsConfig is all-or-nothing -/

/-- C7: once the configuration file has been read and parsed, a failed
validation of the merged configuration returns `success: false` with
the filesystem untouched, and a successful validation writes the full
merged configuration — there is no partially-applied write. -/
theorem update_tsconfig_all_or_nothing (eng : Engine) (fs : FileSystem)
    (o : TsConfigUpdateOptions) (content : String) (cfg : JValue)
    (hread : readFileContent fs (resolvePath o.configPath) = .ok content)
    (hcfg : eng.readConfig content = .ok cfg)
    (hnn : isNull cfg = false) :
    ((validateConfig (mergeTsConfig cfg o.options)).isValid = false →
      updateTsConfig eng fs o = .ok (fs,
        { success := false
          message := "Configuration validation failed: " ++
            String.intercalate ", " (validateConfig (mergeTsConfig cfg o.options)).errors }))
    ∧ ((validateConfig (mergeTsConfig cfg o.options)).isValid = true →
      updateTsConfig eng fs o = .ok
        (writeFileFs fs (resolvePath o.configPath)
          (eng.stringify (mergeTsConfig cfg o.options)),
         { success := true
           message := "TypeScript configuration updated successfully"
           updatedConfig := some (mergeTsConfig cfg o.options) })) := by
  have hex := fileExists_of_read_ok hread
  constructor
  · intro hv
    simp [updateTsConfig, hex, hread, hcfg, hnn, hv]
  · intro hv
    simp [updateTsConfig, hex, hread, hcfg, hnn, hv]

theorem update_tsconfig_all_or_nothing_witness :
    (validateConfig (mergeTsConfig cfgFixture badUpdateFixture.options)).isValid = false
    ∧ updateTsConfig engFixture fsFixture badUpdateFixture = .ok (fsFixture,
        { success := false
          message := "Configuration validation failed: " ++
            String.intercalate ", "
              (validateConfig (mergeTsConfig cfgFixture badUpdateFixture.options)).errors })
    ∧ updateTsConfig engFixture fsFixture goodUpdateFixture = .ok
        (writeFileFs fsFixture (resolvePath goodUpdateFixture.configPath)
          (engFixture.stringify (mergeTsConfig cfgFixture goodUpdateFixture.options)),
         { success := true
           message := "TypeScript configuration updated successfully"
           updatedConfig := some (mergeTsConfig cfgFixture goodUpdateFixture.options) }) :=
  ⟨by rfl,
   (update_tsconfig_all_or_nothing engFixture fsFixture badUpdateFixture "CONTENT" cfgFixture
      rfl rfl rfl).1 (by rfl),
   (update_tsconfig_all_or_nothing engFixture fsFixture goodUpdateFixture "CONTENT" cfgFixture
      rfl rfl rfl).2 (by rfl)⟩

/-! ### Claim C8 — exception boundary -/

/-- C8, counterexample.  At a missing target both entry points reject:
`checkTypes` has no catch and throws its not-found error to the caller;
`compileFile` has a catch, but the delegated `compileSingleFile` promise
is returned without `await`, so its rejection bypasses the catch.
Neither produces the `success: false` result with a synthetic
diagnostic that the claim requires. -/
theorem check_types_throw_counterexample :
    checkTypes nullEngine [] { filePath := "/missing.ts" }
      = Except.error "File not found: /missing.ts"
    ∧ compileFile nullEngine initialWatcherState [] { filePath := some "/missing.ts" }
      = Except.error "File not found: /missing.ts" := by
  constructor <;> rfl

/-- C8, amended.  `compileFile` converts only exceptions raised
synchronously in its own dispatch body (a request with neither
`filePath` nor `projectPath`) into a `success: false` result with a
synthetic error diagnostic; rejections of the delegated single-file
compilation (e.g. a missing source file) escape to the caller, and
`checkTypes` likewise throws its not-found error — those escapes are
only converted to error replies at the request-handler boundary in
`src/index.ts`. -/
theorem orchestrator_exception_boundary_amended (eng : Engine) (ws : WatcherState)
    (fs : FileSystem) (opts : CompileOptions) (topts : TypeCheckOptions) :
    (optStrTruthy opts.filePath = false → optStrTruthy opts.projectPath = false →
      compileFile eng ws fs opts = .ok (ws, fs,
        { success := false
          errors := some [{ file := "unknown", line := 0, column := 0,
                            message := "Either filePath or projectPath must be provided",
                            code := "COMPILE_ERROR", severity := Severity.error }] }))
    ∧ (opts.watch.getD false = false → optStrTruthy opts.projectPath = false →
        optStrTruthy opts.filePath = true →
        fileExists fs (resolvePath (opts.filePath.getD "")) = false →
        compileFile eng ws fs opts
          = .error ("File not found: " ++ resolvePath (opts.filePath.getD "")))
    ∧ (fileExists fs (resolvePath topts.filePath) = false →
        checkTypes eng fs topts = .error ("File not found: " ++ resolvePath topts.filePath)) := by
  refine ⟨?_, ?_, ?_⟩
  · intro hf hp
    have hw : (opts.watch.getD false && optStrTruthy opts.filePath) = false := by
      rw [hf]; exact Bool.and_false _
    simp [compileFile, hw, hf, hp]
  · intro hw hp hf hex
    have hwc : (opts.watch.getD false && optStrTruthy opts.filePath) = false := by
      rw [hw]; exact Bool.false_and _
    cases hfp : opts.filePath with
    | none => rw [hfp] at hf; simp [optStrTruthy] at hf
    | some fp =>
        rw [hfp] at hex hf
        have hex2 : fileExists fs (resolvePath fp) = false := by simpa using hex
        simp [compileFile, hw, hp, hf, hfp, compileSingleFile, hex2, Except.map]
  · intro hex
    simp [checkTypes, hex]

theorem orchestrator_exception_boundary_amended_witness :
    compileFile nullEngine initialWatcherState [] {}
      = .ok (initialWatcherState, [],
        { success := false
          errors := some [{ file := "unknown", line := 0, column := 0,
                            message := "Either filePath or projectPath must be provided",
                            code := "COMPILE_ERROR", severity := Severity.error }] })
    ∧ compileFile nullEngine initialWatcherState [] { filePath := some "/nope.ts" }
      = .error ("File not found: " ++ resolvePath "/nope.ts")
    ∧ checkTypes nullEngine [] { filePath := "/nope.ts" }
      = .error ("File not found: " ++ resolvePath "/nope.ts") :=
  ⟨(orchestrator_exception_boundary_amended nullEngine initialWatcherState [] {}
      { filePath := "/nope.ts" }).1 rfl rfl,
   (orchestrator_exception_boundary_amended nullEngine initialWatcherState []
      { filePath := some "/nope.ts" } { filePath := "/nope.ts" }).2.1 rfl rfl rfl rfl,
   (orchestrator_exception_boundary_amended nullEngine initialWatcherState [] {}
      { filePath := "/nope.ts" }).2.2 rfl⟩

/-! ### Claim C10 — updateTsConfig frame property -/

/-- C10: a successful update writes exactly the merged configuration;
in that merged configuration every top-level key other than
`compilerOptions` keeps the prior file's value, and inside
`compilerOptions` every key the update does not mention keeps its prior
value. -/
theorem update_tsconfig_frame (eng : Engine) (fs : FileSystem) (o : TsConfigUpdateOptions)
    (content : String) (fields : List (String × JValue)) (k : String)
    (hread : readFileContent fs (resolvePath o.configPath) = .ok content)
    (hcfg : eng.readConfig content = .ok (.obj fields))
    (hvalid : (validateConfig (mergeTsConfig (.obj fields) o.options)).isValid = true) :
    updateTsConfig eng fs o = .ok
      (writeFileFs fs (resolvePath o.configPath)
        (eng.stringify (mergeTsConfig (.obj fields) o.options)),
       { success := true
         message := "TypeScript configuration updated successfully"
         updatedConfig := some (mergeTsConfig (.obj fields) o.options) })
    ∧ (k ≠ "compilerOptions" →
        alookup (spreadFields (mergeTsConfig (.obj fields) o.options)) k = alookup fields k)
    ∧ (alookup o.options k = none →
        alookup (spreadFields
            (objGet (mergeTsConfig (.obj fields) o.options) "compilerOptions")) k
          = alookup (spreadFields (objGet (.obj fields) "compilerOptions")) k) := by
  have hex := fileExists_of_read_ok hread
  refine ⟨?_, ?_, ?_⟩
  · simp [updateTsConfig, hex, hread, hcfg, hvalid, isNull]
  · intro hk
    have hne : ¬ ("compilerOptions" = k) := fun hh => hk hh.symm
    show alookup (mergeFields fields
        [("compilerOptions", .obj (mergeFields
          (spreadFields (objGet (.obj fields) "compilerOptions")) o.options))]) k
      = alookup fields k
    rw [alookup_mergeFields]
    have hnone : alookup [("compilerOptions",
        JValue.obj (mergeFields
          (spreadFields (objGet (.obj fields) "compilerOptions")) o.options))] k = none := by
      simp [alookup, hne]
    rw [hnone]
    rfl
  · intro hk
    have hco : alookup (mergeFields fields
        [("compilerOptions", .obj (mergeFields
          (spreadFields (objGet (.obj fields) "compilerOptions")) o.options))])
        "compilerOptions"
      = some (.obj (mergeFields
          (spreadFields (objGet (.obj fields) "compilerOptions")) o.options)) := by
      rw [alookup_mergeFields]
      simp [alookup, optOr]
    show alookup (spreadFields ((alookup (mergeFields fields
        [("compilerOptions", .obj (mergeFields
          (spreadFields (objGet (.obj fields) "compilerOptions")) o.options))])
        "compilerOptions").getD .undefined)) k
      = alookup (spreadFields (objGet (.obj fields) "compilerOptions")) k
    rw [hco]
    show alookup (mergeFields
        (spreadFields (objGet (.obj fields) "compilerOptions")) o.options) k
      = alookup (spreadFields (objGet (.obj fields) "compilerOptions")) k
    rw [alookup_mergeFields, hk]
    rfl

theorem update_tsconfig_frame_witness :
    updateTsConfig engFixture fsFixture goodUpdateFixture = .ok
      (writeFileFs fsFixture (resolvePath goodUpdateFixture.configPath)
        (engFixture.stringify (mergeTsConfig (.obj cfgFixtureFields) goodUpdateFixture.options)),
       { success := true
         message := "TypeScript configuration updated successfully"
         updatedConfig := some (mergeTsConfig (.obj cfgFixtureFields) goodUpdateFixture.options) })
    ∧ alookup (spreadFields (mergeTsConfig (.obj cfgFixtureFields) goodUpdateFixture.options))
        "include" = alookup cfgFixtureFields "include"
    ∧ alookup (spreadFields
          (objGet (mergeTsConfig (.obj cfgFixtureFields) goodUpdateFixture.options)
            "compilerOptions")) "strict"
        = alookup (spreadFields (objGet (JValue.obj cfgFixtureFields) "compilerOptions"))
            "strict" :=
  ⟨(update_tsconfig_frame engFixture fsFixture goodUpdateFixture "CONTENT" cfgFixtureFields
      "include" rfl rfl rfl).1,
   (update_tsconfig_frame engFixture fsFixture goodUpdateFixture "CONTENT" cfgFixtureFields
      "include" rfl rfl rfl).2.1 (by decide),
   (update_tsconfig_frame engFixture fsFixture goodUpdateFixture "CONTENT" cfgFixtureFields
      "strict" rfl rfl rfl).2.2 (by rfl)⟩

/-! ### Claim C9 — output path of non-TypeScript inputs -/

theorem getOutputPath_keep (p : String) (h1 : strEndsWith p ".ts" = false)
    (h2 : strEndsWith p ".tsx" = false) : getOutputPath p none = p := by
  simp [getOutputPath, optStrTruthy, h1, h2]

theorem alookup_writeFileFs_self (fs : FileSystem) (p : String) (c : String) :
    alookup (writeFileFs fs p c) p = some (FsEntry.file c) := by
  simp [writeFileFs, alookup]

/-- C9: with no output directory, `getOutputPath` leaves any path not
ending in `.ts`/`.tsx` unchanged, so `compileSingleFile` on such a file
writes the transpiled text over the source file itself; with an output
directory the result is always the directory joined flat with the
stripped basename plus `.js`, independent of the input's directory
structure. -/
theorem get_output_path_overwrite :
    (∀ p : String, strEndsWith p ".ts" = false → strEndsWith p ".tsx" = false →
      getOutputPath p none = p)
    ∧ (∀ p d : String, d ≠ "" →
        getOutputPath p (some d) = joinPath d (basenameStripExt p ++ ".js")
        ∧ getOutputPath p (some d) = getOutputPath (basenameFull p) (some d))
    ∧ (∀ (eng : Engine) (fs : FileSystem) (p src : String),
        strEndsWith p ".ts" = false → strEndsWith p ".tsx" = false →
        resolvePath p = p → alookup fs p = some (FsEntry.file src) →
        ∃ r : FileSystem × CompilationResult,
          compileSingleFile eng fs { filePath := some p } = Except.ok r
          ∧ r.2.files.map Prod.fst = [p]
          ∧ alookup r.1 p = some (FsEntry.file
              (eng.transpile src p
                (singleFileEffectiveOptions eng fs { filePath := some p } p)).outputText)) := by
  refine ⟨getOutputPath_keep, ?_, ?_⟩
  · intro p d hd
    have ht : optStrTruthy (some d) = true := by simp [optStrTruthy, hd]
    constructor
    · simp [getOutputPath, ht]
    · simp [getOutputPath, ht, basenameStripExt_basenameFull]
  · intro eng fs p src h1 h2 hres hread
    have hex : fileExists fs p = true := by simp [fileExists, hread]
    have hread2 : readFileContent fs p = .ok src := by simp [readFileContent, hread]
    have hout : getOutputPath p none = p := getOutputPath_keep p h1 h2
    cases hsm : (eng.transpile src p
        (singleFileEffectiveOptions eng fs { filePath := some p } p)).sourceMapText with
    | none =>
        have hcall : compileSingleFile eng fs { filePath := some p } = .ok
            (writeFileFs fs p (eng.transpile src p
                (singleFileEffectiveOptions eng fs { filePath := some p } p)).outputText,
             { success := (((eng.transpile src p
                   (singleFileEffectiveOptions eng fs { filePath := some p } p)).diagnostics.map
                     (inlineFormatDiagnostic p)).filter
                   (fun e => e.severity == Severity.error)).isEmpty
               output := some (eng.transpile src p
                 (singleFileEffectiveOptions eng fs { filePath := some p } p)).outputText
               files := [(p, (eng.transpile src p
                 (singleFileEffectiveOptions eng fs { filePath := some p } p)).outputText)]
               errors := if ((eng.transpile src p
                     (singleFileEffectiveOptions eng fs { filePath := some p } p)).diagnostics.map
                       (inlineFormatDiagnostic p)).isEmpty then none
                 else some ((eng.transpile src p
                   (singleFileEffectiveOptions eng fs { filePath := some p } p)).diagnostics.map
                     (inlineFormatDiagnostic p)) }) := by
          simp [compileSingleFile, hres, hex, hread2, hout, hsm]
        refine ⟨_, hcall, by simp, ?_⟩
        exact alookup_writeFileFs_self fs p _
    | some smt =>
        have hcall : compileSingleFile eng fs { filePath := some p } = .ok
            (writeFileFs fs p (eng.transpile src p
                (singleFileEffectiveOptions eng fs { filePath := some p } p)).outputText,
             { success := (((eng.transpile src p
                   (singleFileEffectiveOptions eng fs { filePath := some p } p)).diagnostics.map
                     (inlineFormatDiagnostic p)).filter
                   (fun e => e.severity == Severity.error)).isEmpty
               output := some (eng.transpile src p
                 (singleFileEffectiveOptions eng fs { filePath := some p } p)).outputText
               files := [(p, (eng.transpile src p
                 (singleFileEffectiveOptions eng fs { filePath := some p } p)).outputText)]
               errors := if ((eng.transpile src p
                     (singleFileEffectiveOptions eng fs { filePath := some p } p)).diagnostics.map
                       (inlineFormatDiagnostic p)).isEmpty then none
                 else some ((eng.transpile src p
                   (singleFileEffectiveOptions eng fs { filePath := some p } p)).diagnostics.map
                     (inlineFormatDiagnostic p)) }) := by
          simp [compileSingleFile, hres, hex, hread2, hout, hsm]
        refine ⟨_, hcall, by simp, ?_⟩
        exact alookup_writeFileFs_self fs p _

theorem get_output_path_overwrite_witness :
    getOutputPath "/proj/lib/legacy.js" none = "/proj/lib/legacy.js"
    ∧ getOutputPath "/proj/lib/legacy.js" (some "/out")
      = joinPath "/out" (basenameStripExt "/proj/lib/legacy.js" ++ ".js")
    ∧ ∃ r : FileSystem × CompilationResult,
        compileSingleFile nullEngine [("/proj/lib/legacy.js", FsEntry.file "var x")]
            { filePath := some "/proj/lib/legacy.js" } = Except.ok r
        ∧ r.2.files.map Prod.fst = ["/proj/lib/legacy.js"]
        ∧ alookup r.1 "/proj/lib/legacy.js" = some (FsEntry.file
            (nullEngine.transpile "var x" "/proj/lib/legacy.js"
              (singleFileEffectiveOptions nullEngine
                [("/proj/lib/legacy.js", FsEntry.file "var x")]
                { filePath := some "/proj/lib/legacy.js" } "/proj/lib/legacy.js")).outputText) :=
  ⟨get_output_path_overwrite.1 "/proj/lib/legacy.js" (by rfl) (by rfl),
   (get_output_path_overwrite.2.1 "/proj/lib/legacy.js" "/out" (by decide)).1,
   get_output_path_overwrite.2.2 nullEngine [("/proj/lib/legacy.js", FsEntry.file "var x")]
     "/proj/lib/legacy.js" "var x" (by rfl) (by rfl) (by rfl) (by rfl)⟩

end McpTs
